import Mathlib

/-!
Shallow embedding of the in-memory relational store engine of
`src/services/database.service.ts` (HelenaBase).

Modelling conventions:
* JavaScript dynamic values are modelled by the inductive type `Value`
  (null / NaN / boolean / integer number / string).  Floating point numbers
  other than NaN do not occur in the claims and are not modelled.
* A JavaScript object (a row, a `where` filter, a `data` payload) is an
  association list `List (String × Value)` in key-insertion order; a missing
  key models the JS value `undefined`.
* `localStorage` persistence is modelled by the field `saves` of `DBState`:
  every `saveDatabase()` call in the source conses the serialized database
  onto `saves`, so "no snapshot was persisted" is "`saves` is unchanged".
* `crypto.randomUUID()` and `new Date().toISOString()` are modelled as
  explicit oracle parameters (`uuidGen : Nat → String`, consumed left to
  right, and `now : String`).
* `performance.now()` timing (the `executionTime` result field) is wall-clock
  behaviour and is not modelled; the other `QueryResult` fields are kept.
* Text processing is done on `List Char` so that every definition reduces in
  the kernel; the two regular expressions of `executeSQL` are implemented as
  explicit scanners with the same observable behaviour on the statement
  shapes the engine recognizes: the `i` flag is caseless literal matching,
  `\s` is the six ASCII whitespace characters, the dot of the greedy
  `(.*)\)` and `.* FROM` does not cross the line terminators `\n`/`\r`
  (so `(.*)\)` reads to the last `)` on the opening line and `.* FROM`
  uses the last same-line ` FROM `).
* JS strict equality `===` (the WHERE filter) is `Value.jsEq`: never true
  across dynamic types and never true for NaN, structural otherwise.
* JS comparison `<` / `>` between values of different dynamic types (which
  would numerically coerce in JS) is modelled as "incomparable"; every
  theorem about ordering restricts to columns holding integer values, where
  the model agrees with JS exactly.
* `Number()` coercion inside the auto-increment `Math.max` is modelled only
  on the integer fragment (`toIntL`); every theorem whose instances could
  reach that coercion on other values carries an integer-values hypothesis.
-/

/-- Dynamically typed value stored in a row (JS runtime value). -/
inductive Value where
  | null
  | nan
  | bool (b : Bool)
  | int (n : Int)
  | str (s : String)
deriving DecidableEq, Repr

/-- JS truthiness of a value (`if (v)`): null, NaN, false, 0 and "" are falsy. -/
def Value.truthy : Value → Bool
  | .null => false
  | .nan => false
  | .bool b => b
  | .int n => n != 0
  | .str s => s != ""

/-- JS `<` on two values.  Same-type numbers, strings and booleans compare
with their native ordering; comparisons across types (which JS would coerce)
are modelled as incomparable (both `<` and `>` false), and NaN/null compare
false against everything, matching JS for NaN. -/
def Value.jsLt : Value → Value → Bool
  | .int a, .int b => a < b
  | .str a, .str b => a < b
  | .bool a, .bool b => !a && b
  | _, _ => false

/-- JS strict equality `===`: no coercion, so values of different dynamic
types are never equal, and NaN is not equal to anything — including NaN
itself; on the remaining same-type values it is structural equality. -/
def Value.jsEq : Value → Value → Bool
  | .nan, _ => false
  | _, .nan => false
  | a, b => decide (a = b)

/-- A row: a JS object, i.e. an association list in key-insertion order. -/
abbrev Row := List (String × Value)

/-- Read property `k` of a JS object (`obj[k]`); `none` models `undefined`. -/
def alGet {α : Type} : List (String × α) → String → Option α
  | [], _ => none
  | (k', v) :: rest, k => if k' = k then some v else alGet rest k

/-- Write property `k` of a JS object (`obj[k] = v`): overwrite in place if
the key exists, otherwise append the key at the end (JS objects keep
first-insertion key order). -/
def alSet {α : Type} : List (String × α) → String → α → List (String × α)
  | [], k, v => [(k, v)]
  | (k', v') :: rest, k, v =>
      if k' = k then (k, v) :: rest else (k', v') :: alSet rest k v

/-- Column metadata (interface `Column`).  The declared SQL type is kept as a
plain string since the TS union type is erased at runtime.  Optional TS
fields are `Option`s (`none` models `undefined`). -/
structure Column where
  name : String
  type : String
  nullable : Bool
  default : Option Value
  primary : Option Bool
  unique : Option Bool
  autoIncrement : Option Bool
  length : Option Int
deriving DecidableEq, Repr

/-- Index metadata (interface `Index`); declarative only. -/
structure Index where
  name : String
  columns : List String
  unique : Bool
deriving DecidableEq, Repr

/-- Row-level policy metadata (interface `Policy`); declarative only.
The `using` field is renamed `usingExpr` (`using` is a Lean keyword). -/
structure Policy where
  id : String
  name : String
  type : String
  usingExpr : String
  check : Option String
deriving DecidableEq, Repr

/-- Table (interface `Table`). -/
structure Table where
  id : String
  name : String
  schema : String
  columns : List Column
  rows : List Row
  indexes : List Index
  policies : List Policy
  createdAt : String
  updatedAt : String
deriving DecidableEq, Repr

/-- The database: schema name ↦ table name ↦ table (nested JS objects). -/
abbrev Database := List (String × List (String × Table))

/-- Engine state: the in-memory database plus the history of persisted
snapshots (most recent first); `saveDatabase()` conses onto `saves`. -/
structure DBState where
  database : Database
  saves : List Database
deriving DecidableEq, Repr

/-- Result of a data operation (interface `QueryResult`); the wall-clock
`executionTime` field is not modelled. -/
structure QueryResult where
  success : Bool
  data : Option (List Row)
  error : Option String
  rowsAffected : Option Nat
deriving DecidableEq, Repr

/-- One `ORDER BY` entry; `direction` is the string `"ASC"` or `"DESC"`. -/
structure Order where
  column : String
  direction : String
deriving DecidableEq, Repr

/-- Options accepted by `select`; `where` is a Lean keyword so the field is
named `where_`. -/
structure SelectOptions where
  where_ : Option Row
  orderBy : Option (List Order)
  limit : Option Nat
  offset : Option Nat
deriving DecidableEq, Repr

/-- `getTable`: `this.database[schema]?.[tableName] || null`. -/
def getTable (db : Database) (schema tableName : String) : Option Table :=
  (alGet db schema).bind (fun m => alGet m tableName)

/-- Store table `t` under `schema`/`tableName` (the in-place mutation of the
nested objects, made explicit). -/
def dbSetTable (db : Database) (schema tableName : String) (t : Table) : Database :=
  alSet db schema (alSet ((alGet db schema).getD []) tableName t)

/-- Record a `saveDatabase()` call: snapshot the current database. -/
def saveDatabase (st : DBState) : DBState :=
  { st with saves := st.database :: st.saves }

/-- `createTable`: fails (returns false, no save) if the table already
exists, otherwise stores it (implicitly creating the schema) and persists. -/
def createTable (st : DBState) (schema : String) (table : Table) : DBState × Bool :=
  match getTable st.database schema table.name with
  | some _ => (st, false)
  | none =>
      let db' := dbSetTable st.database schema table.name table
      (saveDatabase { st with database := db' }, true)

/-- `column.default || null`: the default if it is truthy, otherwise null. -/
def jsDefaultOrNull (d : Option Value) : Value :=
  match d with
  | some v => if v.truthy then v else .null
  | none => .null

/-- `addColumn`: fails if the table is absent or the column name is already
declared; otherwise appends the column, backfills `row[name] = default || null`
into every existing row, updates `updatedAt` and persists. -/
def addColumn (st : DBState) (schema tableName : String) (column : Column)
    (now : String) : DBState × Bool :=
  match getTable st.database schema tableName with
  | none => (st, false)
  | some t =>
      if t.columns.any (fun c => decide (c.name = column.name)) then (st, false)
      else
        let t' := { t with
          columns := t.columns ++ [column],
          rows := t.rows.map (fun r => alSet r column.name (jsDefaultOrNull column.default)),
          updatedAt := now }
        let db' := dbSetTable st.database schema tableName t'
        (saveDatabase { st with database := db' }, true)

/-- Decimal integer parser for a JS-style numeric string (used only when an
auto-increment column meets a string value; `none` models NaN). -/
def toIntL : List Char → Option Int
  | [] => none
  | '-' :: ds =>
      match toIntL ds with
      | some n => some (-n)
      | none => none
  | ds =>
      if ds.all Char.isDigit then
        some (Int.ofNat (ds.foldl (fun acc c => acc * 10 + (c.toNat - '0'.toNat)) 0))
      else none

/-- Coerce a value to a number as JS `Math.max` would; `none` models NaN. -/
def valueToNum : Value → Option Int
  | .null => some 0
  | .nan => none
  | .bool b => some (if b then 1 else 0)
  | .int n => some n
  | .str s => toIntL s.data

/-- `x || 0` for a possibly-undefined value. -/
def jsOrZero (o : Option Value) : Value :=
  match o with
  | some v => if v.truthy then v else .int 0
  | none => .int 0

/-- Binary `Math.max` with NaN propagation. -/
def jsMax : Option Int → Option Int → Option Int
  | some a, some b => some (max a b)
  | _, _ => none

/-- `table.rows.length > 0 ? Math.max(...table.rows.map(r => r[c] || 0)) : 0`. -/
def autoIncMax (rows : List Row) (c : String) : Option Int :=
  match rows.map (fun r => valueToNum (jsOrZero (alGet r c))) with
  | [] => some 0
  | x :: xs => xs.foldl jsMax x

/-- The value stored for an auto-increment column: `maxId + 1`. -/
def autoIncValue (rows : List Row) (c : String) : Value :=
  match autoIncMax rows c with
  | some m => .int (m + 1)
  | none => .nan

/-- The value `insert` resolves for one declared column (the if/else chain of
the source, for a column whose generated-UUID counter stands at `k`):
explicit `data` value if present (not undefined); else a truthy default
(with the two generator sentinels recognized); else auto-increment; else
null. -/
def resolveValue (rows : List Row) (data : Row) (uuidGen : Nat → String)
    (now : String) (k : Nat) (c : Column) : Value :=
  match alGet data c.name with
  | some v => v
  | none =>
      if (match c.default with | some d => d.truthy | none => false) then
        match c.default with
        | some d =>
            if d = .str "gen_random_uuid()" then .str (uuidGen k)
            else if d = .str "now()" then .str now
            else d
        | none => .null
      else if c.autoIncrement.getD false then autoIncValue rows c.name
      else .null

/-- Whether resolving column `c` consumes a fresh generated UUID. -/
def usesUuid (data : Row) (c : Column) : Bool :=
  (alGet data c.name).isNone && decide (c.default = some (.str "gen_random_uuid()"))

/-- One iteration of `insert`'s `table.columns.forEach` loop: assign the
resolved value for this column and advance the generated-UUID counter. -/
def insStep (rows : List Row) (data : Row) (uuidGen : Nat → String)
    (now : String) (acc : Row × Nat) (c : Column) : Row × Nat :=
  (alSet acc.1 c.name (resolveValue rows data uuidGen now acc.2 c),
   acc.2 + (if usesUuid data c then 1 else 0))

/-- The row built by `insert`'s `table.columns.forEach` loop. -/
def buildRow (cols : List Column) (rows : List Row) (data : Row)
    (uuidGen : Nat → String) (now : String) : Row :=
  (cols.foldl (insStep rows data uuidGen now) (([] : Row), 0)).1

/-- The `Table <schema>.<tableName> not found` failure result. -/
def tableNotFound (schema tableName : String) : QueryResult :=
  { success := false, data := none,
    error := some ("Table " ++ schema ++ "." ++ tableName ++ " not found"),
    rowsAffected := none }

/-- `insert` (named `insertRow` here: `insert` collides with the root-level
set-insertion function of the library): resolve every declared column,
append the row, stamp `updatedAt`, persist, and return the row with
`rowsAffected = 1`. -/
def insertRow (st : DBState) (schema tableName : String) (data : Row)
    (uuidGen : Nat → String) (now : String) : DBState × QueryResult :=
  match getTable st.database schema tableName with
  | none => (st, tableNotFound schema tableName)
  | some t =>
      let row := buildRow t.columns t.rows data uuidGen now
      let t' := { t with rows := t.rows ++ [row], updatedAt := now }
      let db' := dbSetTable st.database schema tableName t'
      (saveDatabase { st with database := db' },
       { success := true, data := some [row], error := none, rowsAffected := some 1 })

/-- Equality-only WHERE filter: every key of the filter object must strictly
equal (`===`) the row's value at that key; a missing (undefined) row value
never matches, and a NaN filter value matches nothing (NaN === NaN is
false). -/
def matchesWhere (w : Row) (r : Row) : Bool :=
  w.all (fun p =>
    match alGet r p.1 with
    | some v => v.jsEq p.2
    | none => false)

/-- `jsLt` lifted to possibly-undefined operands (`undefined` comparisons are
false in JS). -/
def jsLtOpt : Option Value → Option Value → Bool
  | some a, some b => a.jsLt b
  | _, _ => false

/-- The ORDER BY comparator of `select`: walk the ordering keys in sequence
and decide at the first key where the two rows' values differ, by that key's
direction; 0 if no key decides. -/
def cmpRows : List Order → Row → Row → Int
  | [], _, _ => 0
  | o :: rest, a, b =>
      if jsLtOpt (alGet a o.column) (alGet b o.column) then
        (if o.direction = "ASC" then -1 else 1)
      else if jsLtOpt (alGet b o.column) (alGet a o.column) then
        (if o.direction = "ASC" then 1 else -1)
      else cmpRows rest a b

/-- Insert `x` into a list sorted by comparator `cmp`, before the first
element strictly greater than it. -/
def insertSorted {α : Type} (cmp : α → α → Int) (x : α) : List α → List α
  | [] => [x]
  | y :: ys => if cmp x y ≤ 0 then x :: y :: ys else y :: insertSorted cmp x ys

/-- Stable comparison sort (models `Array.prototype.sort(comparator)`). -/
def sortByCmp {α : Type} (cmp : α → α → Int) : List α → List α
  | [] => []
  | x :: xs => insertSorted cmp x (sortByCmp cmp xs)

/-- `select`: copy the rows, filter by WHERE, sort by ORDER BY, then apply
OFFSET and LIMIT — each pagination step only when its option is truthy
(absent or 0 skips the step, JS falsiness). -/
def select (db : Database) (schema tableName : String)
    (options : SelectOptions) : QueryResult :=
  match getTable db schema tableName with
  | none => tableNotFound schema tableName
  | some t =>
      let results := t.rows
      let results :=
        match options.where_ with
        | some w => results.filter (matchesWhere w)
        | none => results
      let results :=
        match options.orderBy with
        | some ob => sortByCmp (cmpRows ob) results
        | none => results
      let results :=
        match options.offset with
        | some o => if o ≠ 0 then results.drop o else results
        | none => results
      let results :=
        match options.limit with
        | some l => if l ≠ 0 then results.take l else results
        | none => results
      { success := true, data := some results, error := none,
        rowsAffected := some results.length }

/-- `Object.assign(row, data)`: copy every property of `data` onto `row` in
key order, overwriting or adding keys. -/
def jsAssign (r data : Row) : Row :=
  data.foldl (fun acc p => alSet acc p.1 p.2) r

/-- `update`: merge `data` into every row matching the WHERE filter; stamp
`updatedAt` and persist only when at least one row matched. -/
def update (st : DBState) (schema tableName : String) (w : Row) (data : Row)
    (now : String) : DBState × QueryResult :=
  match getTable st.database schema tableName with
  | none => (st, tableNotFound schema tableName)
  | some t =>
      let rowsAffected := t.rows.countP (fun r => matchesWhere w r)
      let newRows := t.rows.map (fun r => if matchesWhere w r then jsAssign r data else r)
      if rowsAffected > 0 then
        let t' := { t with rows := newRows, updatedAt := now }
        let db' := dbSetTable st.database schema tableName t'
        (saveDatabase { st with database := db' },
         { success := true, data := none, error := none, rowsAffected := some rowsAffected })
      else
        let t' := { t with rows := newRows }
        let db' := dbSetTable st.database schema tableName t'
        ({ st with database := db' },
         { success := true, data := none, error := none, rowsAffected := some rowsAffected })

/-- `delete` (named `deleteRows` here: `delete` is reserved in Lean): remove
every row matching the WHERE filter; stamp `updatedAt` and persist only when
the row count changed. -/
def deleteRows (st : DBState) (schema tableName : String) (w : Row)
    (now : String) : DBState × QueryResult :=
  match getTable st.database schema tableName with
  | none => (st, tableNotFound schema tableName)
  | some t =>
      let newRows := t.rows.filter (fun r => !matchesWhere w r)
      let rowsAffected := t.rows.length - newRows.length
      if rowsAffected > 0 then
        let t' := { t with rows := newRows, updatedAt := now }
        let db' := dbSetTable st.database schema tableName t'
        (saveDatabase { st with database := db' },
         { success := true, data := none, error := none, rowsAffected := some rowsAffected })
      else
        let t' := { t with rows := newRows }
        let db' := dbSetTable st.database schema tableName t'
        ({ st with database := db' },
         { success := true, data := none, error := none, rowsAffected := some rowsAffected })

/-- Whitespace test used for trimming and for the regex class `\s`: the six
ASCII whitespace characters JS counts (space, tab, newline, vertical tab,
form feed, carriage return).  Non-ASCII whitespace (NBSP, BOM, Unicode
spaces) is outside the modelled statement alphabet. -/
def chIsWs (c : Char) : Bool :=
  c = ' ' || c = '\t' || c = '\n' || c = '\x0B' || c = '\x0C' || c = '\r'

/-- Word character test for the regex class `\w` (`[A-Za-z0-9_]`). -/
def chIsWord (c : Char) : Bool :=
  ('a' ≤ c && c ≤ 'z') || ('A' ≤ c && c ≤ 'Z') || ('0' ≤ c && c ≤ '9') || c = '_'

/-- Strip leading and trailing whitespace (models `String.prototype.trim`). -/
def trimL (cs : List Char) : List Char :=
  ((cs.dropWhile chIsWs).reverse.dropWhile chIsWs).reverse

/-- Uppercase every character (models `String.prototype.toUpperCase` on the
ASCII statements the engine recognizes). -/
def upperL (cs : List Char) : List Char :=
  cs.map Char.toUpper

/-- Does `cs` start with `p`? -/
def listHasPfx : List Char → List Char → Bool
  | [], _ => true
  | _ :: _, [] => false
  | p :: ps, c :: cs => p = c && listHasPfx ps cs

/-- Does `cs` contain `pat` as a contiguous substring
(models `String.prototype.includes`)? -/
def listHasSub (pat : List Char) : List Char → Bool
  | [] => listHasPfx pat []
  | c :: cs => listHasPfx pat (c :: cs) || listHasSub pat cs

/-- `sql.trim().toUpperCase()` as a string. -/
def trimUpper (s : String) : String :=
  String.mk (upperL (trimL s.data))

/-- `trimmedSQL.startsWith(pat)`. -/
def strStarts (s pat : String) : Bool :=
  listHasPfx pat.data s.data

/-- Case-insensitive literal match: drop `p` from the front of `cs`
(the regexes carry the `i` flag). -/
def dropPfxCI : List Char → List Char → Option (List Char)
  | [], cs => some cs
  | _ :: _, [] => none
  | p :: ps, c :: cs => if p.toUpper = c.toUpper then dropPfxCI ps cs else none

/-- Split the body at the last `)` the greedy `(.*)\)` of the CREATE TABLE
regex can reach: the JS dot does not match the line terminators `\n`/`\r`,
so the content runs to the last closing parenthesis on the same line as the
opening one; `none` if that line holds no `)`. -/
def lastParenSplit (cs : List Char) : Option (List Char) :=
  match ((cs.takeWhile (fun c => c ≠ '\n' && c ≠ '\r')).reverse).dropWhile
      (fun c => c ≠ ')') with
  | ')' :: restR => some restR.reverse
  | _ => none

/-- Try the regex `/CREATE TABLE (\w+)\.?(\w+)?\s*\((.*)\)/i` anchored at the
start of `cs`: returns the two word groups and the column-list text. -/
def matchCreateAt (cs : List Char) : Option (String × Option String × String) :=
  match dropPfxCI "CREATE TABLE ".data cs with
  | none => none
  | some rest =>
      let g1 := rest.takeWhile chIsWord
      if g1.isEmpty then none
      else
        let rest1 := rest.dropWhile chIsWord
        let rest2 := match rest1 with | '.' :: r => r | _ => rest1
        let g2 := rest2.takeWhile chIsWord
        let rest3 := (rest2.dropWhile chIsWord).dropWhile chIsWs
        match rest3 with
        | '(' :: body =>
            match lastParenSplit body with
            | some content =>
                some (String.mk g1,
                      (if g2.isEmpty then none else some (String.mk g2)),
                      String.mk content)
            | none => none
        | _ => none

/-- Unanchored search for the CREATE TABLE shape (the regex is not anchored):
try every start position, leftmost match wins. -/
def searchCreate : List Char → Option (String × Option String × String)
  | [] => none
  | c :: cs =>
      match matchCreateAt (c :: cs) with
      | some r => some r
      | none => searchCreate cs

/-- Try ` FROM (\w+)\.?(\w+)?` anchored at the start of `cs`. -/
def matchFromAt (cs : List Char) : Option (String × Option String) :=
  match dropPfxCI " FROM ".data cs with
  | none => none
  | some rest =>
      let g1 := rest.takeWhile chIsWord
      if g1.isEmpty then none
      else
        let rest1 := rest.dropWhile chIsWord
        let rest2 := match rest1 with | '.' :: r => r | _ => rest1
        let g2 := rest2.takeWhile chIsWord
        some (String.mk g1, (if g2.isEmpty then none else some (String.mk g2)))

/-- Last position where ` FROM <word>` matches (the greedy `.*` of
`/SELECT .* FROM (\w+)\.?(\w+)?/i` hands the groups to the last ` FROM `). -/
def lastFrom : List Char → Option (String × Option String)
  | [] => none
  | c :: cs =>
      match lastFrom cs with
      | some r => some r
      | none => matchFromAt (c :: cs)

/-- Try the regex `/SELECT .* FROM (\w+)\.?(\w+)?/i` anchored at the start:
the `.*` does not match line terminators, so only ` FROM ` occurrences on
the first line after `SELECT ` are candidates. -/
def matchSelectAt (cs : List Char) : Option (String × Option String) :=
  match dropPfxCI "SELECT ".data cs with
  | none => none
  | some rest => lastFrom (rest.takeWhile (fun c => c ≠ '\n' && c ≠ '\r'))

/-- Unanchored search for the SELECT shape. -/
def searchSelect : List Char → Option (String × Option String)
  | [] => none
  | c :: cs =>
      match matchSelectAt (c :: cs) with
      | some r => some r
      | none => searchSelect cs

/-- Split a character list on commas (models `columnsStr.split(',')`). -/
def splitOnComma : List Char → List (List Char)
  | [] => [[]]
  | ',' :: rest => [] :: splitOnComma rest
  | c :: rest =>
      match splitOnComma rest with
      | [] => [[c]]
      | g :: gs => (c :: g) :: gs

/-- Split a (pre-trimmed) character list on runs of whitespace
(models `colDef.trim().split(/\s+/)`). -/
def wordsL : List Char → List (List Char)
  | [] => []
  | c :: rest =>
      if chIsWs c then wordsL rest
      else
        match wordsL rest with
        | [] => [[c]]
        | g :: gs =>
            match rest with
            | r :: _ => if chIsWs r then [c] :: g :: gs else (c :: g) :: gs
            | [] => [[c]]

/-- Parse one column definition of a CREATE TABLE statement: first token is
the name, second the type (`TEXT` if absent); `nullable` is the absence of
the substring `NOT NULL`; `primary`/`unique` are substring tests. -/
def parseColDef (cs : List Char) : Column :=
  let parts := wordsL (trimL cs)
  { name := String.mk (parts.headD []),
    type := match parts with
      | _ :: t :: _ => String.mk t
      | _ => "TEXT",
    nullable := !(listHasSub "NOT NULL".data cs),
    default := none,
    primary := some (listHasSub "PRIMARY KEY".data cs),
    unique := some (listHasSub "UNIQUE".data cs),
    autoIncrement := none,
    length := none }

/-- The fixed failure result for unrecognized statements. -/
def genericSqlError : QueryResult :=
  { success := false, data := none,
    error := some "SQL parsing not fully implemented for this query",
    rowsAffected := none }

/-- The part of `executeSQL` after the CREATE TABLE branch: the SELECT
recognizer, then the generic failure. -/
def executeSQLRest (st : DBState) (sql : String) : DBState × QueryResult :=
  if strStarts (trimUpper sql) "SELECT" then
    match searchSelect sql.data with
    | some (g1, g2) =>
        let schema := match g2 with | some _ => g1 | none => "public"
        let tableName := match g2 with | some t => t | none => g1
        (st, select st.database schema tableName
          { where_ := none, orderBy := none, limit := none, offset := none })
    | none => (st, genericSqlError)
  else (st, genericSqlError)

/-- `executeSQL` (the artificial latency of the source is not modelled):
recognize CREATE TABLE and SELECT by keyword prefix plus regex shape; any
other input yields the generic failure result. -/
def executeSQL (st : DBState) (sql : String) (uuid : String) (now : String) :
    DBState × QueryResult :=
  if strStarts (trimUpper sql) "CREATE TABLE" then
    match searchCreate sql.data with
    | some (g1, g2, columnsStr) =>
        let schema := match g2 with | some _ => g1 | none => "public"
        let tableName := match g2 with | some t => t | none => g1
        let columns := (splitOnComma columnsStr.data).map parseColDef
        let table : Table :=
          { id := uuid, name := tableName, schema := schema, columns := columns,
            rows := [], indexes := [], policies := [], createdAt := now,
            updatedAt := now }
        let st' := (createTable st schema table).1
        (st', { success := true, data := some [], error := none,
                rowsAffected := some 0 })
    | none => executeSQLRest st sql
  else executeSQLRest st sql

/-- Does the row hold an integer number at column `c`?  Used to scope the
ordering and auto-increment theorems to numeric columns. -/
def isIntAt (r : Row) (c : String) : Bool :=
  match alGet r c with
  | some (.int _) => true
  | _ => false

/-- The integer values stored at column `c` across a list of rows. -/
def colVals (rows : List Row) (c : String) : List Int :=
  rows.filterMap (fun r =>
    match alGet r c with
    | some (Value.int m) => some m
    | _ => none)

/-! ### Association-list lemmas -/

theorem alGet_alSet_self {α : Type} (al : List (String × α)) (k : String) (v : α) :
    alGet (alSet al k v) k = some v := by
  induction al with
  | nil => simp [alGet, alSet]
  | cons p rest ih =>
      obtain ⟨k', v'⟩ := p
      by_cases h : k' = k <;> simp [alGet, alSet, h, ih]

theorem alGet_alSet_ne {α : Type} (al : List (String × α)) (k k' : String) (v : α)
    (h : k' ≠ k) : alGet (alSet al k' v) k = alGet al k := by
  induction al with
  | nil => simp [alGet, alSet, h]
  | cons p rest ih =>
      obtain ⟨k0, v0⟩ := p
      by_cases h0 : k0 = k'
      · subst h0; simp [alGet, alSet, h]
      · simp [alGet, alSet, h0, ih]

theorem alSet_self {α : Type} (al : List (String × α)) (k : String) (v : α)
    (h : alGet al k = some v) : alSet al k v = al := by
  induction al with
  | nil => simp [alGet] at h
  | cons p rest ih =>
      obtain ⟨k0, v0⟩ := p
      by_cases h0 : k0 = k
      · subst h0
        simp [alGet] at h
        simp [alSet, h]
      · simp [alGet, h0] at h
        simp [alSet, h0, ih h]

theorem alSet_append_of_not_mem {α : Type} (al : List (String × α)) (k : String) (v : α)
    (h : ∀ p ∈ al, p.1 ≠ k) : alSet al k v = al ++ [(k, v)] := by
  induction al with
  | nil => simp [alSet]
  | cons p rest ih =>
      obtain ⟨k0, v0⟩ := p
      have hk0 : k0 ≠ k := h (k0, v0) (List.mem_cons_self _ _)
      simp [alSet, hk0]
      exact ih (fun q hq => h q (List.mem_cons_of_mem _ hq))

theorem alGet_append_of_some {α : Type} (al al2 : List (String × α)) (k : String) (v : α)
    (h : alGet al k = some v) : alGet (al ++ al2) k = some v := by
  induction al with
  | nil => simp [alGet] at h
  | cons p rest ih =>
      obtain ⟨k0, v0⟩ := p
      by_cases h0 : k0 = k
      · subst h0
        simp [alGet] at h ⊢
        exact h
      · simp [alGet, h0] at h ⊢
        exact ih h

theorem alGet_append_of_not_mem {α : Type} (al al2 : List (String × α)) (k : String)
    (h : ∀ p ∈ al, p.1 ≠ k) : alGet (al ++ al2) k = alGet al2 k := by
  induction al with
  | nil => simp
  | cons p rest ih =>
      obtain ⟨k0, v0⟩ := p
      have hk0 : k0 ≠ k := h (k0, v0) (List.mem_cons_self _ _)
      simp [alGet, hk0]
      exact ih (fun q hq => h q (List.mem_cons_of_mem _ hq))

/-! ### Database-structure lemmas -/

theorem getTable_elim (db : Database) (s n : String) (t : Table)
    (h : getTable db s n = some t) :
    ∃ m, alGet db s = some m ∧ alGet m n = some t := by
  unfold getTable at h
  cases hm : alGet db s with
  | none => rw [hm] at h; simp [Option.bind] at h
  | some m => rw [hm] at h; exact ⟨m, rfl, h⟩

theorem getTable_dbSetTable (db : Database) (s n : String) (t : Table) :
    getTable (dbSetTable db s n t) s n = some t := by
  unfold getTable dbSetTable
  rw [alGet_alSet_self]
  simp [alGet_alSet_self]

theorem dbSetTable_self (db : Database) (s n : String) (t : Table)
    (h : getTable db s n = some t) : dbSetTable db s n t = db := by
  obtain ⟨m, hs, hn⟩ := getTable_elim db s n t h
  unfold dbSetTable
  rw [hs]
  simp only [Option.getD_some]
  rw [alSet_self m n t hn, alSet_self db s m hs]

/-! ### Concrete fixtures used by witnesses and counterexamples -/

/-- A table fixture in schema `public`. -/
def mkTable (nm : String) (cols : List Column) (rows : List Row) : Table :=
  { id := nm, name := nm, schema := "public", columns := cols, rows := rows,
    indexes := [], policies := [], createdAt := "T0", updatedAt := "T0" }

/-- A state fixture: one `public` schema holding the given tables, no saves. -/
def mkState (tbls : List (String × Table)) : DBState :=
  { database := [("public", tbls)], saves := [] }

/-- A nullable INTEGER column with no default. -/
def colInt (nm : String) : Column :=
  { name := nm, type := "INTEGER", nullable := true, default := none,
    primary := none, unique := none, autoIncrement := none, length := none }

/-- An INTEGER column whose declared default is the (falsy) number 0. -/
def colDefZero : Column :=
  { name := "a", type := "INTEGER", nullable := true, default := some (.int 0),
    primary := none, unique := none, autoIncrement := none, length := none }

/-- An auto-increment INTEGER column with no default. -/
def colAuto : Column :=
  { name := "id", type := "INTEGER", nullable := false, default := none,
    primary := none, unique := none, autoIncrement := some true, length := none }

/-- Row holding a single string field `v`. -/
def rowV (s : String) : Row := [("v", Value.str s)]

/-- Row holding a single integer field `x`. -/
def rowX (n : Int) : Row := [("x", Value.int n)]

/-- State with an empty `public` schema. -/
def emptyState : DBState := mkState []

/-- State with table `t` of rows A, B, C. -/
def stABC : DBState :=
  mkState [("t", mkTable "t" [colInt "v"] [rowV "A", rowV "B", rowV "C"])]

/-- State with table `x` of rows x=3, x=1, x=2 (in that storage order). -/
def stX312 : DBState :=
  mkState [("x", mkTable "x" [colInt "x"] [rowX 3, rowX 1, rowX 2])]

/-- State with table `t` having a single falsy-default column and no rows. -/
def stDefZero : DBState := mkState [("t", mkTable "t" [colDefZero] [])]

/-- State with table `t` of one row `a = 1`. -/
def stOneRow : DBState :=
  mkState [("t", mkTable "t" [colInt "a"] [[("a", Value.int 1)]])]

/-- State with table `t` having an auto-increment column and rows 5 and 2. -/
def stAuto : DBState :=
  mkState [("t", mkTable "t" [colAuto]
    [[("id", Value.int 5)], [("id", Value.int 2)]])]

/-- State with table `t` having an auto-increment column and no rows. -/
def stAutoEmpty : DBState := mkState [("t", mkTable "t" [colAuto] [])]

/-! ### Object.assign lemmas -/

theorem alGet_jsAssign_not_mem (data : Row) (r : Row) (k : String)
    (h : ∀ p ∈ data, p.1 ≠ k) : alGet (jsAssign r data) k = alGet r k := by
  induction data generalizing r with
  | nil => rfl
  | cons p rest ih =>
      obtain ⟨k0, v0⟩ := p
      have hk0 : k0 ≠ k := h (k0, v0) (List.mem_cons_self _ _)
      show alGet (jsAssign (alSet r k0 v0) rest) k = alGet r k
      rw [ih (alSet r k0 v0) (fun q hq => h q (List.mem_cons_of_mem _ hq))]
      exact alGet_alSet_ne r k k0 v0 hk0

theorem alGet_jsAssign_of_nodup (data : Row) (r : Row) (k : String) (v : Value)
    (hnd : (data.map Prod.fst).Nodup) (h : alGet data k = some v) :
    alGet (jsAssign r data) k = some v := by
  induction data generalizing r with
  | nil => simp [alGet] at h
  | cons p rest ih =>
      obtain ⟨k0, v0⟩ := p
      show alGet (jsAssign (alSet r k0 v0) rest) k = some v
      by_cases hk : k0 = k
      · subst hk
        simp [alGet] at h
        subst h
        have hnot : ∀ p ∈ rest, p.1 ≠ k0 := by
          intro q hq hEq
          have h1 : q.1 ∈ rest.map Prod.fst := List.mem_map_of_mem _ hq
          rw [hEq] at h1
          exact (List.nodup_cons.mp hnd).1 h1
        rw [alGet_jsAssign_not_mem rest _ k0 hnot]
        exact alGet_alSet_self r k0 v0
      · simp [alGet, hk] at h
        exact ih _ (List.nodup_cons.mp hnd).2 h

/-! ### Claim C6: update with a WHERE filter matching zero rows -/

/-- C6: for every existing table and every update whose `where` filter matches
zero rows, `update` returns success with `rowsAffected = 0` and leaves the
whole engine state unchanged — no row modified, no `updatedAt` change, and no
snapshot persisted (`saves` untouched). -/
theorem update_no_match_frame (st : DBState) (s n : String) (w data : Row)
    (now : String) (t : Table) (ht : getTable st.database s n = some t)
    (hzero : ∀ r ∈ t.rows, matchesWhere w r = false) :
    update st s n w data now =
      (st, { success := true, data := none, error := none, rowsAffected := some 0 }) := by
  have hcount : t.rows.countP (fun r => matchesWhere w r) = 0 := by
    apply List.countP_eq_zero.mpr
    intro r hr
    simp [hzero r hr]
  have hmap : t.rows.map (fun r => if matchesWhere w r then jsAssign r data else r) = t.rows := by
    calc t.rows.map (fun r => if matchesWhere w r then jsAssign r data else r)
        = t.rows.map id := List.map_congr_left (fun r hr => by simp [hzero r hr])
      _ = t.rows := List.map_id t.rows
  unfold update
  rw [ht]
  simp only [hcount, hmap, gt_iff_lt, lt_self_iff_false, if_false]
  have ht' : ({ t with rows := t.rows } : Table) = t := rfl
  rw [ht', dbSetTable_self st.database s n t ht]

/-- C6 witness: a concrete no-match update returns `rowsAffected = 0` and the
state is bit-for-bit unchanged. -/
theorem update_no_match_frame_witness :
    update stOneRow "public" "t" [("a", Value.int 2)] [("a", Value.int 7)] "T9" =
      (stOneRow, { success := true, data := none, error := none, rowsAffected := some 0 }) :=
  update_no_match_frame stOneRow "public" "t" [("a", Value.int 2)] [("a", Value.int 7)] "T9"
    (mkTable "t" [colInt "a"] [[("a", Value.int 1)]]) (by decide) (by decide)

/-! ### Claim C9: limit = 0 and offset = 0 behave like absent options -/

/-- C9: `select` treats `limit = 0` exactly like an absent limit (all
surviving rows are returned, not zero rows) and `offset = 0` exactly like an
absent offset — a zero pagination option is a no-op (JS falsiness). -/
theorem select_zero_pagination_noop (db : Database) (s n : String)
    (w : Option Row) (ob : Option (List Order)) (l o : Option Nat) :
    select db s n { where_ := w, orderBy := ob, limit := some 0, offset := o } =
      select db s n { where_ := w, orderBy := ob, limit := none, offset := o } ∧
    select db s n { where_ := w, orderBy := ob, limit := l, offset := some 0 } =
      select db s n { where_ := w, orderBy := ob, limit := l, offset := none } := by
  constructor <;>
  · unfold select
    cases getTable db s n <;> simp

/-! ### Claim C5: addColumn appends the column and backfills existing rows -/

/-- C5 counterexample: the claim says every pre-existing row gains the new
column with the column's default value (here the number 0), but the source
backfills `column.default || null`, so the falsy default 0 is replaced by
null: after adding column `b` with default 0, the existing row holds null. -/
theorem addColumn_falsy_default_cex :
    (getTable (addColumn stOneRow "public" "t"
        { name := "b", type := "INTEGER", nullable := true,
          default := some (.int 0), primary := none, unique := none,
          autoIncrement := none, length := none } "T1").1.database "public" "t").map
      Table.rows = some [[("a", Value.int 1), ("b", Value.null)]] ∧
    Value.null ≠ Value.int 0 := by
  constructor
  · rfl
  · decide

/-- C5 (amended): for every existing table and a column name not yet
declared, `addColumn` returns true, appends the column at the end of the
column sequence, and backfills every pre-existing row with the column's
default value if that default is truthy and null otherwise (in particular
null when there is no default); every backfilled row contains the new key. -/
theorem addColumn_appends_and_backfills (st : DBState) (s n : String)
    (col : Column) (now : String) (t : Table)
    (ht : getTable st.database s n = some t)
    (hnew : ∀ c ∈ t.columns, c.name ≠ col.name) :
    ∃ st', addColumn st s n col now = (st', true) ∧
      getTable st'.database s n = some
        { t with columns := t.columns ++ [col],
                 rows := t.rows.map (fun r => alSet r col.name (jsDefaultOrNull col.default)),
                 updatedAt := now } ∧
      ∀ r' ∈ (t.rows.map (fun r => alSet r col.name (jsDefaultOrNull col.default))),
        alGet r' col.name = some (jsDefaultOrNull col.default) := by
  have hany : t.columns.any (fun c => decide (c.name = col.name)) = false := by
    apply List.any_eq_false.mpr
    intro c hc
    simp [hnew c hc]
  have heq : addColumn st s n col now =
      (saveDatabase
        { st with
          database := dbSetTable st.database s n
            { t with
              columns := t.columns ++ [col],
              rows := t.rows.map (fun r => alSet r col.name (jsDefaultOrNull col.default)),
              updatedAt := now } },
       true) := by
    unfold addColumn
    rw [ht]
    simp [hany]
  refine ⟨_, heq, ?_, ?_⟩
  · exact getTable_dbSetTable _ s n _
  · intro r' hr'
    obtain ⟨r, _, hEq⟩ := List.mem_map.mp hr'
    rw [← hEq]
    exact alGet_alSet_self r col.name (jsDefaultOrNull col.default)

/-- C5 witness: adding a no-default column `b` to a one-row table appends it
and backfills null into the existing row. -/
theorem addColumn_appends_and_backfills_witness :
    ∃ st', addColumn stOneRow "public" "t" (colInt "b") "T1" = (st', true) ∧
      getTable st'.database "public" "t" = some
        { mkTable "t" [colInt "a"] [[("a", Value.int 1)]] with
            columns := [colInt "a"] ++ [colInt "b"],
            rows := [[("a", Value.int 1)]].map
              (fun r => alSet r (colInt "b").name (jsDefaultOrNull (colInt "b").default)),
            updatedAt := "T1" } ∧
      ∀ r' ∈ ([[("a", Value.int 1)]].map
          (fun r => alSet r (colInt "b").name (jsDefaultOrNull (colInt "b").default))),
        alGet r' (colInt "b").name = some (jsDefaultOrNull (colInt "b").default) :=
  addColumn_appends_and_backfills stOneRow "public" "t" (colInt "b") "T1"
    (mkTable "t" [colInt "a"] [[("a", Value.int 1)]]) (by decide) (by decide)

/-! ### Claim C10: update merges every data key into matching rows -/

/-- C10: for every existing table and every update whose filter matches at
least one row, every key of `data` (its keys being distinct) is merged into
each matching row — keys not among the declared columns included, unlike
`insert` which drops undeclared keys; the table's rows become the pointwise
merge and `rowsAffected` counts the matches. -/
theorem update_merges_all_data_keys (st : DBState) (s n : String)
    (w data : Row) (now : String) (t : Table)
    (ht : getTable st.database s n = some t)
    (hmatch : ∃ r ∈ t.rows, matchesWhere w r = true)
    (hkeys : (data.map Prod.fst).Nodup) :
    ∃ t', getTable (update st s n w data now).1.database s n = some t' ∧
      t'.rows = t.rows.map (fun r => if matchesWhere w r then jsAssign r data else r) ∧
      (update st s n w data now).2.rowsAffected =
        some (t.rows.countP (fun r => matchesWhere w r)) ∧
      ∀ r : Row, ∀ k v, alGet data k = some v → alGet (jsAssign r data) k = some v := by
  have hcount : 0 < t.rows.countP (fun r => matchesWhere w r) := by
    apply List.countP_pos_iff.mpr
    obtain ⟨r, hr, hm⟩ := hmatch
    exact ⟨r, hr, by simp [hm]⟩
  refine ⟨{ t with
      rows := t.rows.map (fun r => if matchesWhere w r then jsAssign r data else r),
      updatedAt := now }, ?_, ?_, ?_, ?_⟩
  · unfold update
    rw [ht]
    simp only [gt_iff_lt, hcount, if_true]
    exact getTable_dbSetTable _ s n _
  · rfl
  · unfold update
    rw [ht]
    simp only [gt_iff_lt, hcount, if_true]
  · intro r k v h
    exact alGet_jsAssign_of_nodup data r k v hkeys h

/-- C10 witness: updating the matching row of a one-row table with a payload
whose key `zz` is not a declared column stores `zz` on the row. -/
theorem update_merges_all_data_keys_witness :
    ∃ t', getTable (update stOneRow "public" "t" [("a", Value.int 1)]
        [("zz", Value.int 9)] "T2").1.database "public" "t" = some t' ∧
      t'.rows = [[("a", Value.int 1)]].map
        (fun r => if matchesWhere [("a", Value.int 1)] r
                  then jsAssign r [("zz", Value.int 9)] else r) ∧
      (update stOneRow "public" "t" [("a", Value.int 1)]
        [("zz", Value.int 9)] "T2").2.rowsAffected =
        some ([[("a", Value.int 1)]].countP
          (fun r => matchesWhere [("a", Value.int 1)] r)) ∧
      ∀ r : Row, ∀ k v, alGet [("zz", Value.int 9)] k = some v →
        alGet (jsAssign r [("zz", Value.int 9)]) k = some v :=
  update_merges_all_data_keys stOneRow "public" "t" [("a", Value.int 1)]
    [("zz", Value.int 9)] "T2" (mkTable "t" [colInt "a"] [[("a", Value.int 1)]])
    (by decide) (by decide) (by decide)

/-! ### Claim C3: the select pipeline order -/

/-- C3 counterexample: the claim's final pipeline stage "keep at most limit
rows" fails when `limit = 0`: on the three-row table the result keeps all
three rows, while taking at most 0 rows would keep none. -/
theorem select_limit_zero_cex :
    (select stABC.database "public" "t"
        { where_ := none, orderBy := none, limit := some 0, offset := none }).data =
      some [rowV "A", rowV "B", rowV "C"] ∧
    some [rowV "A", rowV "B", rowV "C"] ≠
      some (List.take 0 [rowV "A", rowV "B", rowV "C"]) := by
  constructor
  · rfl
  · decide

/-- C3 (amended): for every existing table, `select` filters by WHERE
(equality on every filter key), then sorts if ORDER BY is given, then drops
the first `offset` rows, then — provided `limit` is nonzero (a zero limit is
skipped like an absent one) — keeps at most `limit` rows, with
`rowsAffected` the returned count; in particular offset=1, limit=1 on rows
[A,B,C] returns exactly [B].  The hypothesis `hvals` scopes the sort stage
to integer values at the ordering columns (where the source comparator's
native `<`/`>` is the integer order and `Array.prototype.sort`, specified
stable, returns exactly the stable sort the model computes); it is vacuous
when no ORDER BY is given. -/
theorem select_pipeline (db : Database) (s n : String) (w : Option Row)
    (ob : Option (List Order)) (o l : Nat) (t : Table)
    (ht : getTable db s n = some t) (hl : 0 < l)
    (hvals : ∀ r ∈ t.rows, ∀ o' ∈ ob.getD [], isIntAt r o'.column = true) :
    (select db s n { where_ := w, orderBy := ob, limit := some l, offset := some o } =
      { success := true,
        data := some ((((match ob with
            | some os => sortByCmp (cmpRows os)
            | none => id) (match w with
            | some wm => t.rows.filter (matchesWhere wm)
            | none => t.rows)).drop o).take l),
        error := none,
        rowsAffected := some ((((match ob with
            | some os => sortByCmp (cmpRows os)
            | none => id) (match w with
            | some wm => t.rows.filter (matchesWhere wm)
            | none => t.rows)).drop o).take l).length }) ∧
    (select stABC.database "public" "t"
        { where_ := none, orderBy := none, limit := some 1, offset := some 1 }).data =
      some [rowV "B"] := by
  constructor
  · have hl' : l ≠ 0 := Nat.pos_iff_ne_zero.mp hl
    unfold select
    rw [ht]
    cases w <;> cases ob <;>
      · by_cases ho : o = 0 <;> simp [hl', ho]
  · rfl

/-- C3 witness: the pipeline equation applied at offset 1, limit 1 on the
concrete three-row table yields exactly [B]. -/
theorem select_pipeline_witness :
    (select stABC.database "public" "t"
        { where_ := none, orderBy := none, limit := some 1, offset := some 1 } =
      { success := true,
        data := some ((((match (none : Option (List Order)) with
            | some os => sortByCmp (cmpRows os)
            | none => id) (match (none : Option Row) with
            | some wm => [rowV "A", rowV "B", rowV "C"].filter (matchesWhere wm)
            | none => [rowV "A", rowV "B", rowV "C"])).drop 1).take 1),
        error := none,
        rowsAffected := some ((((match (none : Option (List Order)) with
            | some os => sortByCmp (cmpRows os)
            | none => id) (match (none : Option Row) with
            | some wm => [rowV "A", rowV "B", rowV "C"].filter (matchesWhere wm)
            | none => [rowV "A", rowV "B", rowV "C"])).drop 1).take 1).length }) ∧
    (select stABC.database "public" "t"
        { where_ := none, orderBy := none, limit := some 1, offset := some 1 }).data =
      some [rowV "B"] :=
  select_pipeline stABC.database "public" "t" none none 1 1
    (mkTable "t" [colInt "v"] [rowV "A", rowV "B", rowV "C"]) (by decide) (by decide)
    (by decide)

/-! ### Claim C8: keyword matches, regex shape fails -/

/-- The CREATE TABLE statement of claim C7. -/
def sqlCreateFoo : String :=
  "CREATE TABLE public.foo (id UUID PRIMARY KEY, name VARCHAR NOT NULL)"

/-- C7: `executeSQL("CREATE TABLE public.foo (id UUID PRIMARY KEY, name
VARCHAR NOT NULL)")` succeeds with zero rows affected and creates table
`foo` in schema `public` with exactly two columns: `id` of type UUID with
primary = true and nullable = true (the definition text "id UUID PRIMARY
KEY" does not contain "NOT NULL"), and `name` of type VARCHAR with
nullable = false. -/
theorem executeSQL_create_table_foo :
    (executeSQL emptyState sqlCreateFoo "u1" "T0").2 =
      { success := true, data := some [], error := none, rowsAffected := some 0 } ∧
    getTable (executeSQL emptyState sqlCreateFoo "u1" "T0").1.database "public" "foo" =
      some { id := "u1", name := "foo", schema := "public",
             columns :=
               [{ name := "id", type := "UUID", nullable := true, default := none,
                  primary := some true, unique := some false,
                  autoIncrement := none, length := none },
                { name := "name", type := "VARCHAR", nullable := false, default := none,
                  primary := some false, unique := some false,
                  autoIncrement := none, length := none }],
             rows := [], indexes := [], policies := [],
             createdAt := "T0", updatedAt := "T0" } := by
  constructor
  · rfl
  · rfl

/-! ### Claims C1 and C2: insert's per-column value resolution -/

theorem foldl_insStep_spec (rows : List Row) (data : Row) (g : Nat → String)
    (now : String) (cols : List Column) : ∀ (r0 : Row) (k0 : Nat),
    (∀ c ∈ cols, ∀ p ∈ r0, p.1 ≠ c.name) →
    (cols.map Column.name).Nodup →
    ((cols.foldl (insStep rows data g now) (r0, k0)).1.map Prod.fst =
        r0.map Prod.fst ++ cols.map Column.name) ∧
    (∀ k v, alGet r0 k = some v →
        alGet (cols.foldl (insStep rows data g now) (r0, k0)).1 k = some v) ∧
    (∀ c ∈ cols, ∃ k, alGet (cols.foldl (insStep rows data g now) (r0, k0)).1 c.name =
        some (resolveValue rows data g now k c)) := by
  induction cols with
  | nil =>
      intro r0 k0 _ _
      exact ⟨by simp, fun k v h => h, by simp⟩
  | cons c cs ih =>
      intro r0 k0 hdis hnd
      have hnotmem : ∀ p ∈ r0, p.1 ≠ c.name :=
        fun p hp => hdis c (List.mem_cons_self _ _) p hp
      have hr1 : alSet r0 c.name (resolveValue rows data g now k0 c) =
          r0 ++ [(c.name, resolveValue rows data g now k0 c)] :=
        alSet_append_of_not_mem r0 c.name _ hnotmem
      have hstep : (c :: cs).foldl (insStep rows data g now) (r0, k0) =
          cs.foldl (insStep rows data g now)
            (r0 ++ [(c.name, resolveValue rows data g now k0 c)],
             k0 + (if usesUuid data c then 1 else 0)) := by
        rw [List.foldl_cons]
        unfold insStep
        rw [hr1]
      have hnameNotIn : c.name ∉ cs.map Column.name := by
        have := hnd
        simp only [List.map_cons, List.nodup_cons] at this
        exact this.1
      have hnd' : (cs.map Column.name).Nodup := by
        have := hnd
        simp only [List.map_cons, List.nodup_cons] at this
        exact this.2
      have hdis' : ∀ c' ∈ cs,
          ∀ p ∈ r0 ++ [(c.name, resolveValue rows data g now k0 c)], p.1 ≠ c'.name := by
        intro c' hc' p hp
        rcases List.mem_append.mp hp with h | h
        · exact hdis c' (List.mem_cons_of_mem _ hc') p h
        · have hpEq : p = (c.name, resolveValue rows data g now k0 c) := by simpa using h
          rw [hpEq]
          intro hEq
          apply hnameNotIn
          have hEq' : c.name = c'.name := hEq
          rw [hEq']
          exact List.mem_map_of_mem Column.name hc'
      obtain ⟨ihkeys, ihpres, ihres⟩ :=
        ih (r0 ++ [(c.name, resolveValue rows data g now k0 c)])
          (k0 + (if usesUuid data c then 1 else 0)) hdis' hnd'
      refine ⟨?_, ?_, ?_⟩
      · rw [hstep, ihkeys]
        simp
      · intro k v h
        rw [hstep]
        exact ihpres k v (alGet_append_of_some r0 _ k v h)
      · intro c' hc'
        rcases List.mem_cons.mp hc' with h | h
        · subst h
          refine ⟨k0, ?_⟩
          rw [hstep]
          apply ihpres
          rw [alGet_append_of_not_mem r0 _ c'.name hnotmem]
          simp [alGet]
        · obtain ⟨k, hk⟩ := ihres c' h
          exact ⟨k, by rw [hstep]; exact hk⟩

/-- C1 counterexample: on a table whose only column `a` declares the (falsy)
default value 0 and an insert providing no explicit value, the claim's
precedence predicts the literal default 0, but the source's truthiness test
`else if (col.default)` skips it and stores null. -/
theorem insert_falsy_default_cex :
    (insertRow stDefZero "public" "t" [] (fun _ => "u") "T1").2.data =
      some [[("a", Value.null)]] ∧
    ([("a", Value.null)] : Row) ≠ [("a", Value.int 0)] := by
  refine ⟨rfl, by decide⟩

theorem insertRow_resolves (st : DBState) (s n : String) (data : Row)
    (g : Nat → String) (now : String) (t : Table)
    (ht : getTable st.database s n = some t)
    (hnd : (t.columns.map Column.name).Nodup) :
    ∃ row, (insertRow st s n data g now).2 =
        { success := true, data := some [row], error := none, rowsAffected := some 1 } ∧
      getTable (insertRow st s n data g now).1.database s n =
        some { t with rows := t.rows ++ [row], updatedAt := now } ∧
      row.map Prod.fst = t.columns.map Column.name ∧
      (∀ c ∈ t.columns, ∃ k, alGet row c.name =
          some (resolveValue t.rows data g now k c)) := by
  obtain ⟨hkeys, _, hres⟩ :=
    foldl_insStep_spec t.rows data g now t.columns [] 0 (by simp) hnd
  refine ⟨buildRow t.columns t.rows data g now, ?_, ?_, ?_, ?_⟩
  · unfold insertRow
    rw [ht]
  · unfold insertRow
    rw [ht]
    exact getTable_dbSetTable _ s n _
  · simpa [buildRow] using hkeys
  · intro c hc
    obtain ⟨k, hk⟩ := hres c hc
    exact ⟨k, by rw [buildRow]; exact hk⟩

/-- C1 (amended): for every existing table, `insert` builds the new row by
resolving each declared column in declaration order with this precedence:
the explicit `data` value if present; else the column's default provided it
is truthy (the sentinel "gen_random_uuid()" yielding a generated identifier,
"now()" yielding the current timestamp, any other truthy default its literal
value; a falsy default — 0, false, "", null — is skipped); else, for an
auto-increment column, one more than the maximum existing value (0 if no
rows); else null (`resolveValue` is exactly this chain).  The row's keys are
exactly the declared column names, so keys of `data` not matching a declared
column are dropped.  The hypothesis `hints` scopes the theorem to tables
whose auto-increment columns hold integer values in every stored row, the
fragment on which the model's `Math.max` number coercion is exact (JS
`Number()` of non-integer numeric strings is outside the `Value` model). -/
theorem insert_resolution (st : DBState) (s n : String) (data : Row)
    (g : Nat → String) (now : String) (t : Table)
    (ht : getTable st.database s n = some t)
    (hnd : (t.columns.map Column.name).Nodup)
    (hints : ∀ c ∈ t.columns, c.autoIncrement.getD false = true →
      ∀ r ∈ t.rows, isIntAt r c.name = true) :
    ∃ row, (insertRow st s n data g now).2 =
        { success := true, data := some [row], error := none, rowsAffected := some 1 } ∧
      getTable (insertRow st s n data g now).1.database s n =
        some { t with rows := t.rows ++ [row], updatedAt := now } ∧
      row.map Prod.fst = t.columns.map Column.name ∧
      (∀ c ∈ t.columns, ∃ k, alGet row c.name =
          some (resolveValue t.rows data g now k c)) :=
  insertRow_resolves st s n data g now t ht hnd

/-- C1 witness: the amended resolution theorem applied at the concrete
one-column table. -/
theorem insert_resolution_witness :
    (∀ c ∈ (mkTable "t" [colDefZero] []).columns, c.autoIncrement.getD false = true →
      ∀ r ∈ (mkTable "t" [colDefZero] []).rows, isIntAt r c.name = true) ∧
    ∃ row, (insertRow stDefZero "public" "t" [] (fun _ => "u") "T1").2 =
        { success := true, data := some [row], error := none, rowsAffected := some 1 } ∧
      getTable (insertRow stDefZero "public" "t" [] (fun _ => "u") "T1").1.database "public" "t" =
        some { mkTable "t" [colDefZero] [] with rows := [] ++ [row], updatedAt := "T1" } ∧
      row.map Prod.fst = [colDefZero].map Column.name ∧
      (∀ c ∈ [colDefZero], ∃ k, alGet row c.name =
          some (resolveValue [] [] (fun _ => "u") "T1" k c)) :=
  ⟨by decide,
   insert_resolution stDefZero "public" "t" [] (fun _ => "u") "T1"
    (mkTable "t" [colDefZero] []) (by decide) (by decide) (by decide)⟩

theorem isIntAt_elim (r : Row) (c : String) (h : isIntAt r c = true) :
    ∃ x : Int, alGet r c = some (Value.int x) := by
  unfold isIntAt at h
  cases hv : alGet r c with
  | none => rw [hv] at h; simp at h
  | some v =>
      rw [hv] at h
      cases v with
      | int x => exact ⟨x, rfl⟩
      | null => simp at h
      | nan => simp at h
      | bool b => simp at h
      | str s => simp at h

theorem valueToNum_jsOrZero_int (r : Row) (c : String) (x : Int)
    (h : alGet r c = some (Value.int x)) :
    valueToNum (jsOrZero (alGet r c)) = some x := by
  rw [h]
  unfold jsOrZero
  by_cases hx : x = 0
  · subst hx
    simp [Value.truthy, valueToNum]
  · simp [Value.truthy, hx, valueToNum]

theorem map_valueToNum_eq (rows : List Row) (c : String)
    (hints : ∀ r ∈ rows, isIntAt r c = true) :
    rows.map (fun r => valueToNum (jsOrZero (alGet r c))) = (colVals rows c).map some := by
  induction rows with
  | nil => rfl
  | cons r rs ih =>
      obtain ⟨x, hx⟩ := isIntAt_elim r c (hints r (List.mem_cons_self _ _))
      have h1 := valueToNum_jsOrZero_int r c x hx
      have h2 := ih (fun r' hr' => hints r' (List.mem_cons_of_mem _ hr'))
      rw [hx] at h1
      simp only [List.map_cons, colVals, List.filterMap_cons, hx, h1]
      simp only [colVals] at h2
      rw [h2]

theorem foldl_jsMax_map_some (xs : List Int) (a : Int) :
    (xs.map some).foldl jsMax (some a) = some (xs.foldl max a) := by
  induction xs generalizing a with
  | nil => rfl
  | cons x xs ih =>
      simp only [List.map_cons, List.foldl_cons]
      rw [show jsMax (some a) (some x) = some (max a x) from rfl]
      exact ih (max a x)

theorem foldl_max_ge (xs : List Int) (a : Int) :
    a ≤ xs.foldl max a ∧ ∀ x ∈ xs, x ≤ xs.foldl max a := by
  induction xs generalizing a with
  | nil => simp
  | cons y ys ih =>
      constructor
      · calc a ≤ max a y := le_max_left a y
          _ ≤ ys.foldl max (max a y) := (ih (max a y)).1
      · intro x hx
        rcases List.mem_cons.mp hx with h | h
        · subst h
          calc x ≤ max a x := le_max_right a x
            _ ≤ ys.foldl max (max a x) := (ih (max a x)).1
        · exact (ih (max a y)).2 x h

theorem foldl_max_mem (xs : List Int) (a : Int) :
    xs.foldl max a = a ∨ xs.foldl max a ∈ xs := by
  induction xs generalizing a with
  | nil => left; rfl
  | cons y ys ih =>
      rcases ih (max a y) with h | h
      · rcases max_choice a y with hm | hm
        · left
          rw [List.foldl_cons, h, hm]
        · right
          rw [List.foldl_cons, h, hm]
          exact List.mem_cons_self _ _
      · right
        exact List.mem_cons_of_mem _ h

theorem autoIncValue_int_spec (rows : List Row) (c : String)
    (hints : ∀ r ∈ rows, isIntAt r c = true) :
    (rows = [] → autoIncValue rows c = Value.int 1) ∧
    (rows ≠ [] → ∃ m : Int, (∀ x ∈ colVals rows c, x ≤ m) ∧ m ∈ colVals rows c ∧
      autoIncValue rows c = Value.int (m + 1)) := by
  constructor
  · intro h
    subst h
    rfl
  · intro hne
    cases hrows : rows with
    | nil => exact absurd hrows hne
    | cons r rs =>
        subst hrows
        obtain ⟨x, hx⟩ := isIntAt_elim r c (hints r (List.mem_cons_self _ _))
        have hmap := map_valueToNum_eq (r :: rs) c hints
        have hcv : colVals (r :: rs) c = x :: colVals rs c := by
          simp only [colVals, List.filterMap_cons, hx]
        refine ⟨(colVals rs c).foldl max x, ?_, ?_, ?_⟩
        · intro y hy
          rw [hcv] at hy
          rcases List.mem_cons.mp hy with h | h
          · subst h
            exact (foldl_max_ge (colVals rs c) y).1
          · exact (foldl_max_ge (colVals rs c) x).2 y h
        · rw [hcv]
          rcases foldl_max_mem (colVals rs c) x with h | h
          · rw [h]
            exact List.mem_cons_self _ _
          · exact List.mem_cons_of_mem _ h
        · have h3 := foldl_jsMax_map_some (colVals rs c) x
          unfold autoIncValue autoIncMax
          rw [hmap, hcv, List.map_cons]
          show (match List.foldl jsMax (some x) (List.map some (colVals rs c)) with
              | some m => Value.int (m + 1)
              | none => Value.nan) = Value.int ((colVals rs c).foldl max x + 1)
          rw [h3]

/-- C2: for every existing table with an auto-increment column (no default,
no explicit value supplied in `data`, integer values in every stored row):
when the table has no rows the inserted row stores value 1 for that column,
and otherwise it stores one plus the maximum existing value of that column
across all rows at the time of the insert. -/
theorem insert_autoIncrement_value (st : DBState) (s n : String) (data : Row)
    (g : Nat → String) (now : String) (t : Table) (c : Column)
    (ht : getTable st.database s n = some t)
    (hnd : (t.columns.map Column.name).Nodup)
    (hc : c ∈ t.columns)
    (hdef : c.default = none) (hauto : c.autoIncrement = some true)
    (hdata : alGet data c.name = none)
    (hints : ∀ r ∈ t.rows, isIntAt r c.name = true) :
    ∃ row, (insertRow st s n data g now).2.data = some [row] ∧
      getTable (insertRow st s n data g now).1.database s n =
        some { t with rows := t.rows ++ [row], updatedAt := now } ∧
      (t.rows = [] → alGet row c.name = some (Value.int 1)) ∧
      (t.rows ≠ [] → ∃ m : Int, (∀ x ∈ colVals t.rows c.name, x ≤ m) ∧
        m ∈ colVals t.rows c.name ∧ alGet row c.name = some (Value.int (m + 1))) := by
  obtain ⟨row, hres, hget, _, hvals⟩ := insertRow_resolves st s n data g now t ht hnd
  obtain ⟨k, hk⟩ := hvals c hc
  have hrv : resolveValue t.rows data g now k c = autoIncValue t.rows c.name := by
    unfold resolveValue
    rw [hdata, hdef, hauto]
    simp
  have h2 := autoIncValue_int_spec t.rows c.name hints
  refine ⟨row, ?_, hget, ?_, ?_⟩
  · rw [hres]
  · intro h0
    rw [hk, hrv, h2.1 h0]
  · intro hne
    obtain ⟨m, hle, hmem, hval⟩ := h2.2 hne
    exact ⟨m, hle, hmem, by rw [hk, hrv, hval]⟩

/-- C2 witness: inserting into the concrete table whose rows hold id 5 and
id 2 stores id 6 = 5 + 1 (and the first-insert conjunct holds vacuously). -/
theorem insert_autoIncrement_value_witness :
    ∃ row, (insertRow stAuto "public" "t" [] (fun _ => "u") "T3").2.data = some [row] ∧
      getTable (insertRow stAuto "public" "t" [] (fun _ => "u") "T3").1.database "public" "t" =
        some { mkTable "t" [colAuto] [[("id", Value.int 5)], [("id", Value.int 2)]] with
          rows := [[("id", Value.int 5)], [("id", Value.int 2)]] ++ [row], updatedAt := "T3" } ∧
      ([[("id", Value.int 5)], [("id", Value.int 2)]] = ([] : List Row) →
        alGet row "id" = some (Value.int 1)) ∧
      ([[("id", Value.int 5)], [("id", Value.int 2)]] ≠ ([] : List Row) →
        ∃ m : Int,
          (∀ x ∈ colVals [[("id", Value.int 5)], [("id", Value.int 2)]] "id", x ≤ m) ∧
          m ∈ colVals [[("id", Value.int 5)], [("id", Value.int 2)]] "id" ∧
          alGet row "id" = some (Value.int (m + 1))) :=
  insert_autoIncrement_value stAuto "public" "t" [] (fun _ => "u") "T3"
    (mkTable "t" [colAuto] [[("id", Value.int 5)], [("id", Value.int 2)]]) colAuto
    (by decide) (by decide) (by decide) (by decide) (by decide) (by decide) (by decide)

/-! ### Claim C4: ORDER BY sorts by the first-differing-key comparator -/

theorem insertSorted_perm {α : Type} (cmp : α → α → Int) (x : α) (l : List α) :
    (insertSorted cmp x l).Perm (x :: l) := by
  induction l with
  | nil => exact List.Perm.refl _
  | cons y ys ih =>
      unfold insertSorted
      by_cases h : cmp x y ≤ 0
      · simp only [if_pos h]
        exact List.Perm.refl _
      · simp only [if_neg h]
        exact (ih.cons y).trans (List.Perm.swap x y ys)

theorem sortByCmp_perm {α : Type} (cmp : α → α → Int) (l : List α) :
    (sortByCmp cmp l).Perm l := by
  induction l with
  | nil => exact List.Perm.refl _
  | cons x xs ih =>
      exact (insertSorted_perm cmp x (sortByCmp cmp xs)).trans (ih.cons x)

theorem mem_insertSorted {α : Type} (cmp : α → α → Int) (x a : α) (l : List α) :
    a ∈ insertSorted cmp x l ↔ a ∈ x :: l :=
  (insertSorted_perm cmp x l).mem_iff

theorem mem_sortByCmp {α : Type} (cmp : α → α → Int) (a : α) (l : List α) :
    a ∈ sortByCmp cmp l ↔ a ∈ l :=
  (sortByCmp_perm cmp l).mem_iff

theorem pairwise_insertSorted {α : Type} (cmp : α → α → Int) (x : α) (l : List α)
    (htot : ∀ b ∈ l, cmp x b ≤ 0 ∨ cmp b x ≤ 0)
    (htrans : ∀ b ∈ l, ∀ c ∈ l, cmp x b ≤ 0 → cmp b c ≤ 0 → cmp x c ≤ 0)
    (hp : l.Pairwise (fun a b => cmp a b ≤ 0)) :
    (insertSorted cmp x l).Pairwise (fun a b => cmp a b ≤ 0) := by
  induction l with
  | nil => simp [insertSorted]
  | cons y ys ih =>
      rw [List.pairwise_cons] at hp
      unfold insertSorted
      by_cases h : cmp x y ≤ 0
      · rw [if_pos h]
        apply List.Pairwise.cons
        · intro z hz
          rcases List.mem_cons.mp hz with hz | hz
          · rw [hz]
            exact h
          · exact htrans y (List.mem_cons_self _ _) z (List.mem_cons_of_mem _ hz) h
              (hp.1 z hz)
        · exact List.pairwise_cons.mpr hp
      · rw [if_neg h]
        apply List.Pairwise.cons
        · intro z hz
          rcases List.mem_cons.mp ((mem_insertSorted cmp x z ys).mp hz) with hz' | hz'
          · rw [hz']
            rcases htot y (List.mem_cons_self _ _) with h' | h'
            · exact absurd h' h
            · exact h'
          · exact hp.1 z hz'
        · exact ih (fun b hb => htot b (List.mem_cons_of_mem _ hb))
            (fun b hb c hc => htrans b (List.mem_cons_of_mem _ hb) c (List.mem_cons_of_mem _ hc))
            hp.2

theorem pairwise_sortByCmp {α : Type} (cmp : α → α → Int) (l : List α)
    (htot : ∀ a ∈ l, ∀ b ∈ l, cmp a b ≤ 0 ∨ cmp b a ≤ 0)
    (htrans : ∀ a ∈ l, ∀ b ∈ l, ∀ c ∈ l, cmp a b ≤ 0 → cmp b c ≤ 0 → cmp a c ≤ 0) :
    (sortByCmp cmp l).Pairwise (fun a b => cmp a b ≤ 0) := by
  induction l with
  | nil => simp [sortByCmp]
  | cons x xs ih =>
      unfold sortByCmp
      apply pairwise_insertSorted
      · intro b hb
        exact htot x (List.mem_cons_self _ _) b
          (List.mem_cons_of_mem _ ((mem_sortByCmp cmp b xs).mp hb))
      · intro b hb c hc h1 h2
        exact htrans x (List.mem_cons_self _ _) b
          (List.mem_cons_of_mem _ ((mem_sortByCmp cmp b xs).mp hb)) c
          (List.mem_cons_of_mem _ ((mem_sortByCmp cmp c xs).mp hc)) h1 h2
      · exact ih (fun a ha b hb => htot a (List.mem_cons_of_mem _ ha) b (List.mem_cons_of_mem _ hb))
          (fun a ha b hb c hc => htrans a (List.mem_cons_of_mem _ ha) b
            (List.mem_cons_of_mem _ hb) c (List.mem_cons_of_mem _ hc))

theorem cmpRows_total_int (ob : List Order) (a b : Row)
    (ha : ∀ o ∈ ob, isIntAt a o.column = true)
    (hb : ∀ o ∈ ob, isIntAt b o.column = true) :
    cmpRows ob a b ≤ 0 ∨ cmpRows ob b a ≤ 0 := by
  induction ob with
  | nil => left; exact le_refl 0
  | cons o rest ih =>
      obtain ⟨x, hx⟩ := isIntAt_elim a o.column (ha o (List.mem_cons_self _ _))
      obtain ⟨y, hy⟩ := isIntAt_elim b o.column (hb o (List.mem_cons_self _ _))
      have ih' := ih (fun o' h' => ha o' (List.mem_cons_of_mem _ h'))
        (fun o' h' => hb o' (List.mem_cons_of_mem _ h'))
      unfold cmpRows
      rw [hx, hy]
      simp only [jsLtOpt, Value.jsLt, decide_eq_true_eq]
      rcases lt_trichotomy x y with h1 | h1 | h1
      · have h1' : ¬ y < x := by omega
        by_cases hd : o.direction = "ASC"
        · left
          simp [h1, hd]
        · right
          simp [h1, h1', hd]
      · rw [h1]
        simp only [lt_irrefl, if_false]
        exact ih'
      · have h1' : ¬ x < y := by omega
        by_cases hd : o.direction = "ASC"
        · right
          simp [h1, h1', hd]
        · left
          simp [h1, h1', hd]

theorem cmpRows_trans_int (ob : List Order) (a b c : Row)
    (ha : ∀ o ∈ ob, isIntAt a o.column = true)
    (hb : ∀ o ∈ ob, isIntAt b o.column = true)
    (hc : ∀ o ∈ ob, isIntAt c o.column = true) :
    cmpRows ob a b ≤ 0 → cmpRows ob b c ≤ 0 → cmpRows ob a c ≤ 0 := by
  induction ob with
  | nil => intro _ _; exact le_refl 0
  | cons o rest ih =>
      obtain ⟨x, hx⟩ := isIntAt_elim a o.column (ha o (List.mem_cons_self _ _))
      obtain ⟨y, hy⟩ := isIntAt_elim b o.column (hb o (List.mem_cons_self _ _))
      obtain ⟨z, hz⟩ := isIntAt_elim c o.column (hc o (List.mem_cons_self _ _))
      have ih' := ih (fun o' h' => ha o' (List.mem_cons_of_mem _ h'))
        (fun o' h' => hb o' (List.mem_cons_of_mem _ h'))
        (fun o' h' => hc o' (List.mem_cons_of_mem _ h'))
      intro hab hbc
      unfold cmpRows at hab hbc ⊢
      rw [hx, hy] at hab
      rw [hy, hz] at hbc
      rw [hx, hz]
      simp only [jsLtOpt, Value.jsLt, decide_eq_true_eq] at hab hbc ⊢
      by_cases hd : o.direction = "ASC"
      · rcases lt_trichotomy x y with h1 | h1 | h1
        · rcases lt_trichotomy y z with h2 | h2 | h2
          · have h3 : x < z := lt_trans h1 h2
            simp [h3, hd]
          · rw [← h2]
            simp [h1, hd]
          · have h2' : ¬ y < z := by omega
            simp [h2, h2', hd] at hbc
        · rw [h1] at hab ⊢
          simp only [lt_irrefl, if_false] at hab
          rcases lt_trichotomy y z with h2 | h2 | h2
          · simp [h2, hd]
          · rw [← h2]
            simp only [lt_irrefl, if_false]
            rw [← h2] at hbc
            simp only [lt_irrefl, if_false] at hbc
            exact ih' hab hbc
          · have h2' : ¬ y < z := by omega
            simp [h2, h2', hd] at hbc
        · have h1' : ¬ x < y := by omega
          simp [h1, h1', hd] at hab
      · rcases lt_trichotomy x y with h1 | h1 | h1
        · have h1' : ¬ y < x := by omega
          simp [h1, hd] at hab
        · rw [h1] at hab ⊢
          simp only [lt_irrefl, if_false] at hab
          rcases lt_trichotomy y z with h2 | h2 | h2
          · have h2' : ¬ z < y := by omega
            simp [h2, hd] at hbc
          · rw [← h2]
            simp only [lt_irrefl, if_false]
            rw [← h2] at hbc
            simp only [lt_irrefl, if_false] at hbc
            exact ih' hab hbc
          · have h2' : ¬ y < z := by omega
            simp [h2, h2', hd]
        · rcases lt_trichotomy y z with h2 | h2 | h2
          · have h2' : ¬ z < y := by omega
            simp [h2, h2', hd] at hbc
          · rw [← h2]
            have h1' : ¬ x < y := by omega
            simp [h1, h1', hd]
          · have h3 : z < x := lt_trans h2 h1
            have h3' : ¬ x < z := by omega
            simp [h3, h3', hd]

/-- The WHERE stage of `select`, as a named function of the optional
filter (used to state the ORDER BY theorem). -/
def whereFilter (w : Option Row) (rows : List Row) : List Row :=
  match w with
  | some wm => rows.filter (matchesWhere wm)
  | none => rows

/-- C4: for every existing table whose rows hold integer values at the
ordering columns, `select` with ORDER BY returns a permutation of the
WHERE-filtered rows in which every pair of consecutive-or-later rows is
non-decreasing under the source comparator `cmpRows` (which walks the
ordering keys in sequence and decides at the first key where the values
differ, per that key's direction); in particular ORDER BY x ASC on rows
[{x:3},{x:1},{x:2}] returns x values [1,2,3] and DESC returns [3,2,1]. -/
theorem select_orderBy_sorted (db : Database) (s n : String) (w : Option Row)
    (ob : List Order) (t : Table)
    (ht : getTable db s n = some t)
    (hvals : ∀ r ∈ t.rows, ∀ o ∈ ob, isIntAt r o.column = true) :
    (∃ rs, (select db s n
        { where_ := w, orderBy := some ob, limit := none, offset := none }).data = some rs ∧
      rs.Perm (whereFilter w t.rows) ∧
      rs.Pairwise (fun a b => cmpRows ob a b ≤ 0)) ∧
    (select stX312.database "public" "x"
        { where_ := none, orderBy := some [{ column := "x", direction := "ASC" }],
          limit := none, offset := none }).data =
      some [rowX 1, rowX 2, rowX 3] ∧
    (select stX312.database "public" "x"
        { where_ := none, orderBy := some [{ column := "x", direction := "DESC" }],
          limit := none, offset := none }).data =
      some [rowX 3, rowX 2, rowX 1] := by
  refine ⟨?_, rfl, rfl⟩
  have hsub : ∀ r ∈ whereFilter w t.rows, r ∈ t.rows := by
    intro r hr
    cases w with
    | none => exact hr
    | some wm => exact List.mem_of_mem_filter hr
  refine ⟨sortByCmp (cmpRows ob) (whereFilter w t.rows), ?_, sortByCmp_perm _ _, ?_⟩
  · unfold select
    rw [ht]
    cases w <;> rfl
  · apply pairwise_sortByCmp
    · intro a ha' b hb'
      exact cmpRows_total_int ob a b (hvals a (hsub a ha')) (hvals b (hsub b hb'))
    · intro a ha' b hb' c hc' h1 h2
      exact cmpRows_trans_int ob a b c (hvals a (hsub a ha')) (hvals b (hsub b hb'))
        (hvals c (hsub c hc')) h1 h2

/-- C4 witness: the ordering theorem applied at the concrete x=3,1,2 table
with ORDER BY x ASC. -/
theorem select_orderBy_sorted_witness :
    (∃ rs, (select stX312.database "public" "x"
        { where_ := none, orderBy := some [{ column := "x", direction := "ASC" }],
          limit := none, offset := none }).data = some rs ∧
      rs.Perm (whereFilter none [rowX 3, rowX 1, rowX 2]) ∧
      rs.Pairwise (fun a b => cmpRows [{ column := "x", direction := "ASC" }] a b ≤ 0)) ∧
    (select stX312.database "public" "x"
        { where_ := none, orderBy := some [{ column := "x", direction := "ASC" }],
          limit := none, offset := none }).data =
      some [rowX 1, rowX 2, rowX 3] ∧
    (select stX312.database "public" "x"
        { where_ := none, orderBy := some [{ column := "x", direction := "DESC" }],
          limit := none, offset := none }).data =
      some [rowX 3, rowX 2, rowX 1] :=
  select_orderBy_sorted stX312.database "public" "x" none
    [{ column := "x", direction := "ASC" }]
    (mkTable "x" [colInt "x"] [rowX 3, rowX 1, rowX 2]) (by decide) (by decide)
